import Mathlib

/-!
Verification of the sdl-parser / sdl-ast core (concrete-syntax-to-AST
translation pipeline) against its design specification.

The Rust sources embedded here are
`projects/sdl-ast/src/ast/mod.rs` (the AST data model and its
construction functions) and `projects/sdl-parser/src/parser/mod.rs`
(the preprocessing step and the top-level tree builder).  Rust `String`
text handled by the preprocessor is modelled as `List Char`; machine
integers holding offsets are modelled as `Nat`.  Components declared in
the repository but whose definitions are not among the embedded sources
(`TextRange`, `ParserConfig`'s fields, the `CanParse` input abstraction,
`AST::statements`, the error type) are modelled from the specification
and are marked as such in their doc comments.
-/

/-- Modelled from the spec: `TextRange` is declared in the `sdl-ast`
crate but its definition is not among the embedded sources.  Per §3,
"Range — a source span (start, end offsets)".  The field `endPos` models
the Rust field for the end offset. -/
structure TextRange where
  start : Nat
  endPos : Nat
deriving DecidableEq, Repr

/-- Modelled from the spec: the `sum` method of `TextRange` (used by
`box_range` to detect a degenerate span) is not among the embedded
sources.  Per §3's "absent when degenerate (zero length)" and §4.5's
"boxed/omitted according to whether it is degenerate (zero length)",
`sum` is zero exactly on a degenerate span, i.e. it is the span's
length. -/
def TextRange.sum (r : TextRange) : Nat :=
  r.endPos - r.start

/-- Modelled from the spec: `TextRange::default()` is the all-zero span
(the degenerate span at offset zero). -/
instance : Inhabited TextRange := ⟨⟨0, 0⟩⟩

/-- `TemplateKind` from `sdl-ast` (re-exported by `ast/mod.rs`); the
spec's `variant ∈ {SelfClose, OpenClose, HtmlBad}` (§3). -/
inductive TemplateKind : Type where
  | SelfClose : TemplateKind
  | OpenClose : TemplateKind
  | HtmlBad : TemplateKind
deriving DecidableEq, Repr

mutual

/-- The `AST` enum of `ast/mod.rs`: a `Node` carries a kind, an ordered
list of children and an optional boxed range; a `Leaf` carries only a
kind and an optional boxed range. -/
inductive AST : Type where
  | Node (kind : ASTKind) (children : List AST) (r : Option TextRange) : AST
  | Leaf (kind : ASTKind) (r : Option TextRange) : AST

/-- The `ASTKind` enum of `ast/mod.rs`, one constructor per Rust
variant, with the same payloads. -/
inductive ASTKind : Type where
  | None : ASTKind
  | Program : ASTKind
  | Block : ASTKind
  | Statement : ASTKind
  | ForInLoop (v : ForInLoop) : ASTKind
  | Expression (eos : Bool) : ASTKind
  | InfixExpression : ASTKind
  | PrefixExpression : ASTKind
  | SuffixExpression : ASTKind
  | Template (v : Template) : ASTKind
  | List : ASTKind
  | Dict : ASTKind
  | Pair : ASTKind
  | Null : ASTKind
  | Boolean (b : Bool) : ASTKind
  | String (s : String) : ASTKind

/-- Modelled from the spec: `ForInLoop` lives in `ast/loops.rs`, which
is not among the embedded sources.  Per §3 it is the named-field record
`ForInLoop{pattern, terms, block}`. -/
inductive ForInLoop : Type where
  | mk (pattern : AST) (terms : AST) (block : AST) : ForInLoop

/-- Modelled from the spec: `Template` lives in `ast/template.rs`,
which is not among the embedded sources.  Per §3 it carries a variant,
a tag (a Symbol node), ordered bare attributes, ordered key/value
argument pairs, and nested children. -/
inductive Template : Type where
  | mk (variant : TemplateKind) (tag : AST) (attributes : List String)
      (arguments : List (String × AST)) (children : List AST) : Template

end

/-- `AST::kind` of `ast/mod.rs`: the kind stored in either variant. -/
def AST.kind : AST → ASTKind
  | .Node k _ _ => k
  | .Leaf k _ => k

/-- `AST::children` of `ast/mod.rs`: a `Node`'s child list; a `Leaf`
has none (`vec![]`). -/
def AST.children : AST → List AST
  | .Node _ c _ => c
  | .Leaf _ _ => []

/-- `AST::range` of `ast/mod.rs`:
`r.clone().unwrap_or_default().as_ref().clone()` — the stored range, or
`TextRange::default()` when absent. -/
def AST.range : AST → TextRange
  | .Node _ _ r => r.getD default
  | .Leaf _ r => r.getD default

/-- Projection of the stored `r` field of either `AST` variant (the
`Option<Box<TextRange>>` as written in the struct), used to state when
a node's range is absent. -/
def AST.storedRange : AST → Option TextRange
  | .Node _ _ r => r
  | .Leaf _ r => r

/-- `box_range` of `ast/mod.rs`: box the range unless `r.sum()` is
zero. -/
def box_range (r : TextRange) : Option TextRange :=
  match r.sum with
  | 0 => none
  | _ => some r

/-- `AST::program`: a `Program` node with the given children and the
default (absent) range. -/
def AST.program (children : List AST) : AST :=
  .Node .Program children none

/-- `AST::block`. -/
def AST.block (children : List AST) (r : TextRange) : AST :=
  .Node .Block children (box_range r)

/-- `AST::statement`. -/
def AST.statement (children : List AST) (r : TextRange) : AST :=
  .Node .Statement children (box_range r)

/-- `AST::for_in_loop`: the three sub-nodes are packed into the kind
payload of a `Leaf`. -/
def AST.for_in_loop (pattern : AST) (terms : AST) (block : AST) (r : TextRange) : AST :=
  .Leaf (.ForInLoop (.mk pattern terms block)) (box_range r)

/-- `AST::expression`. -/
def AST.expression (children : List AST) (eos : Bool) (r : TextRange) : AST :=
  .Node (.Expression eos) children (box_range r)

/-- `AST::infix` of `ast/mod.rs` (named `infixExpr` here because
`infix` is a reserved word in Lean).  As written in the source, the
operator and both operand arguments are unused: the function returns a
bare `InfixExpression` leaf. -/
def AST.infixExpr (_op : String) (_lhs : AST) (_rhs : AST) (r : TextRange) : AST :=
  .Leaf .InfixExpression (box_range r)

/-- `AST::prefix` of `ast/mod.rs` (named `prefixExpr` here because
`prefix` is a reserved word in Lean).  As written in the source, the
operator and operand arguments are unused. -/
def AST.prefixExpr (_op : String) (_rhs : AST) (r : TextRange) : AST :=
  .Leaf .PrefixExpression (box_range r)

/-- `AST::suffix` of `ast/mod.rs`.  As written in the source, the
operator and operand arguments are unused. -/
def AST.suffix (_op : String) (_lhs : AST) (r : TextRange) : AST :=
  .Leaf .SuffixExpression (box_range r)

/-- `AST::template`: the `Template` payload is packed into the kind of
a `Leaf`. -/
def AST.template (value : Template) (r : TextRange) : AST :=
  .Leaf (.Template value) (box_range r)

/-- `AST::list`. -/
def AST.list (value : List AST) (r : TextRange) : AST :=
  .Node .List value (box_range r)

/-- `AST::null`. -/
def AST.null (r : TextRange) : AST :=
  .Leaf .Null (box_range r)

/-- `AST::boolean`. -/
def AST.boolean (value : Bool) (r : TextRange) : AST :=
  .Leaf (.Boolean value) (box_range r)

/-- `AST::string`. -/
def AST.string (value : String) (r : TextRange) : AST :=
  .Leaf (.String value) (box_range r)

/-- Modelled from the spec: `AST::statements` is called by
`parse_program` but its definition is not among the embedded sources.
Per §6, "Output (success): a `Program` AST node whose children are the
top-level statements, in source order"; the range argument mirrors the
call site, which passes the default range. -/
def AST.statements (children : List AST) (r : TextRange) : AST :=
  .Node .Program children (box_range r)

/-- Model of Rust `str::replace` on character lists: replace every
leftmost, non-overlapping occurrence of `pat` by `rep`, scanning left
to right (matches are located on the input, not re-scanned inside a
replacement).  The recursion is bounded by `fuel`; every step consumes
at least one input character, so the `fuel = s.length` used by
`str_replace` fully processes the input.  An empty pattern never
matches in this model; the three calls in `ParserConfig::parse` all use
non-empty patterns. -/
def str_replace_go (pat rep : List Char) : Nat → List Char → List Char
  | _, [] => []
  | 0, s => s
  | fuel + 1, c :: rest =>
    if pat.isPrefixOf (c :: rest) && !pat.isEmpty then
      rep ++ str_replace_go pat rep fuel ((c :: rest).drop pat.length)
    else
      c :: str_replace_go pat rep fuel rest

/-- Rust `s.replace(pat, rep)` on character lists. -/
def str_replace (s pat rep : List Char) : List Char :=
  str_replace_go pat rep s.length s

/-- Whether `pat` occurs as a contiguous subsequence of `s` (the
substring-containment check the idempotence property speaks about). -/
def occurs (pat : List Char) : List Char → Bool
  | [] => false
  | c :: rest => pat.isPrefixOf (c :: rest) || occurs pat rest

/-- Spec §4.1 step (1), stated in the spec's own words: "convert
`\r\n` → `\n`", as a direct left-to-right scan. -/
def normalize_newlines : List Char → List Char
  | [] => []
  | [c] => [c]
  | c₁ :: c₂ :: rest =>
    if c₁ = '\r' ∧ c₂ = '\n' then '\n' :: normalize_newlines rest
    else c₁ :: normalize_newlines (c₂ :: rest)

/-- Spec §4.1 step (2), stated in the spec's own words: "remove every
`\` immediately followed by `\n` (line-continuation splice)". -/
def splice_continuations : List Char → List Char
  | [] => []
  | [c] => [c]
  | c₁ :: c₂ :: rest =>
    if c₁ = '\\' ∧ c₂ = '\n' then splice_continuations rest
    else c₁ :: splice_continuations (c₂ :: rest)

/-- Spec §4.1 step (3), stated in the spec's own words: "replace every
tab character with exactly `tab_size` space characters". -/
def expand_tabs (tab_size : Nat) : List Char → List Char
  | [] => []
  | c :: rest =>
    if c = '\t' then List.replicate tab_size ' ' ++ expand_tabs tab_size rest
    else c :: expand_tabs tab_size rest

/-- Modelled from the spec: the parser's error type (`ParserResult`'s
error) is not among the embedded sources.  Per §7 the error kinds
carried through the parse entry are the grammar engine's syntax error
(span and expected-production context) and the acquisition error
propagated from the input abstraction. -/
inductive SDLError : Type where
  | syntaxError (span : TextRange) (expected : String) : SDLError
  | acquisitionError (msg : String) : SDLError
deriving DecidableEq, Repr

/-- The grammar engine's rule tags (`sdl_pest::Rule`).  The tree
builder in `parse_program` distinguishes only `EOI` from everything
else, so every other concrete tag is represented by its name. -/
inductive Rule : Type where
  | EOI : Rule
  | tag (name : String) : Rule
deriving DecidableEq, Repr

/-- A concrete parse-tree node handed over by the grammar engine: a
(rule-tag, span, matched text) triple (spec §6's consumed interface). -/
structure Pair where
  rule : Rule
  span : TextRange
  text : String
deriving DecidableEq, Repr

/-- Modelled from the spec: `ParserConfig` is defined in `config.rs`,
which is not among the embedded sources.  Per §3 it "holds `tab_size`
and an optional source locator"; the field names `tab_size` and
`file_url` are the ones `parse` reads and writes. -/
structure ParserConfig where
  tab_size : Nat
  file_url : Option String
deriving DecidableEq, Repr

/-- Modelled from the spec: the `CanParse` input abstraction
(`can_parse.rs` is not among the embedded sources).  Per §6 an input
supplies UTF-8 text (or an acquisition error) and an optional source
locator; `as_url` and `as_text` mirror the two methods `parse` calls. -/
structure CanParse where
  as_url : Option String
  as_text : Except SDLError (List Char)

/-- The observable result of running a parser entry point: the typed
`ParserResult` (`ok`/`err`), or a process abort (`panicked`), which in
Rust is a `panic!`/`unreachable!` and not a returned value. -/
inductive Outcome (α : Type) : Type where
  | ok (a : α) : Outcome α
  | err (e : SDLError) : Outcome α
  | panicked (msg : String) : Outcome α

/-- The loop body of `ParserConfig::parse_program`: `Rule::EOI`
continues; every other rule falls into the `debug_cases!` macro, which
prints the rule, span and text and then calls `unreachable!()` — a
panic.  `codes` accumulates the pushed translations (in reverse). -/
def parse_program_go : List Pair → List AST → Outcome AST
  | [], codes => .ok (AST.statements codes.reverse ⟨0, 0⟩)
  | p :: ps, codes =>
    match p.rule with
    | .EOI => parse_program_go ps codes
    | .tag _ => .panicked "internal error: entered unreachable code"

/-- `ParserConfig::parse_program` of `parser/mod.rs`: iterate the
top-level pairs, then wrap the collected codes via `AST::statements`
with the default range. -/
def ParserConfig.parse_program (_self : ParserConfig) (pairs : List Pair) : Outcome AST :=
  parse_program_go pairs []

/-- The inline preprocessing chain of `ParserConfig::parse`
(lines 26–30): `.replace("\r\n", "\n").replace("\\\n", "")
.replace("\t", &" ".repeat(self.tab_size))`, in this order. -/
def ParserConfig.preprocess (self : ParserConfig) (text : List Char) : List Char :=
  str_replace
    (str_replace (str_replace text ['\r', '\n'] ['\n']) ['\\', '\n'] [])
    ['\t'] (List.replicate self.tab_size ' ')

/-- `ParserConfig::parse` of `parser/mod.rs`.  The external grammar
engine (`SDLParser::parse(Rule::program, ..)`, an out-of-scope
collaborator per the spec's §6 contract) is passed as the function
`engine`; the `&mut self` receiver is modelled by returning the updated
configuration alongside the result.  Mirroring the source: the URL is
recorded first, then text acquisition (`?`), preprocessing, the engine
(`?`), and finally `parse_program`. -/
def ParserConfig.parse (self : ParserConfig)
    (engine : List Char → Except SDLError (List Pair))
    (input : CanParse) : Outcome AST × ParserConfig :=
  let self' : ParserConfig :=
    match input.as_url with
    | some s => { self with file_url := some s }
    | none => self
  match input.as_text with
  | .error e => (.err e, self')
  | .ok text =>
    match engine (self'.preprocess text) with
    | .error e => (.err e, self')
    | .ok pairs => (self'.parse_program pairs, self')

theorem str_replace_go_nil (pat rep : List Char) (fuel : Nat) :
    str_replace_go pat rep fuel [] = [] := by
  cases fuel <;> rfl

/-- Generic shape of `str_replace` for a two-character pattern: it
agrees with any left-to-right scanner `f` replacing `a, b` by `rep`. -/
theorem str_replace_go_two (a b : Char) (rep : List Char) (f : List Char → List Char)
    (hnil : f [] = [])
    (hone : ∀ c, f [c] = [c])
    (hmat : ∀ rest, f (a :: b :: rest) = rep ++ f rest)
    (hmiss : ∀ c₁ c₂ rest, ¬(c₁ = a ∧ c₂ = b) → f (c₁ :: c₂ :: rest) = c₁ :: f (c₂ :: rest)) :
    ∀ fuel s, s.length ≤ fuel → str_replace_go [a, b] rep fuel s = f s := by
  intro fuel
  induction fuel with
  | zero =>
    intro s hs
    rw [Nat.le_zero] at hs
    rw [List.length_eq_zero] at hs
    subst hs
    rw [hnil, str_replace_go_nil]
  | succ n ih =>
    intro s hs
    match s with
    | [] => rw [hnil, str_replace_go_nil]
    | [c] =>
      rw [hone c]
      simp [str_replace_go, List.isPrefixOf]
    | c₁ :: c₂ :: rest =>
      simp only [List.length_cons] at hs
      by_cases hm : c₁ = a ∧ c₂ = b
      · obtain ⟨h1, h2⟩ := hm
        subst h1; subst h2
        rw [hmat]
        simp only [str_replace_go, List.isPrefixOf, List.isEmpty, beq_self_eq_true,
          Bool.true_and, Bool.and_true, Bool.not_false, if_true]
        have : ((c₁ :: c₂ :: rest).drop ([c₁, c₂].length)) = rest := rfl
        rw [this]
        rw [ih rest (by omega)]
      · simp only [str_replace_go, List.isPrefixOf, List.isEmpty, Bool.and_true,
          Bool.not_false]
        rw [if_neg]
        · rw [hmiss c₁ c₂ rest hm]
          rw [ih (c₂ :: rest) (by simp only [List.length_cons]; omega)]
        · simp only [Bool.and_eq_true, beq_iff_eq]
          intro hc
          exact hm ⟨hc.1.symm, hc.2.symm⟩

/-- Generic shape of `str_replace` for a one-character pattern. -/
theorem str_replace_go_one (a : Char) (rep : List Char) (f : List Char → List Char)
    (hnil : f [] = [])
    (hmat : ∀ rest, f (a :: rest) = rep ++ f rest)
    (hmiss : ∀ c rest, c ≠ a → f (c :: rest) = c :: f rest) :
    ∀ fuel s, s.length ≤ fuel → str_replace_go [a] rep fuel s = f s := by
  intro fuel
  induction fuel with
  | zero =>
    intro s hs
    rw [Nat.le_zero] at hs
    rw [List.length_eq_zero] at hs
    subst hs
    rw [hnil, str_replace_go_nil]
  | succ n ih =>
    intro s hs
    match s with
    | [] => rw [hnil, str_replace_go_nil]
    | c :: rest =>
      simp only [List.length_cons] at hs
      by_cases hm : c = a
      · subst hm
        rw [hmat]
        simp only [str_replace_go, List.isPrefixOf, List.isEmpty, beq_self_eq_true,
          Bool.true_and, Bool.and_true, Bool.not_false, if_true]
        have : ((c :: rest).drop ([c].length)) = rest := rfl
        rw [this]
        rw [ih rest (by omega)]
      · simp only [str_replace_go, List.isPrefixOf, List.isEmpty, Bool.and_true,
          Bool.not_false]
        rw [if_neg]
        · rw [hmiss c rest hm]
          rw [ih rest (by omega)]
        · simp only [Bool.and_eq_true, beq_iff_eq]
          intro hc
          exact hm hc.symm

/-- If the pattern never occurs in `s`, `str_replace` leaves `s`
untouched, whatever the fuel. -/
theorem str_replace_go_noop (pat rep : List Char) :
    ∀ fuel s, occurs pat s = false → str_replace_go pat rep fuel s = s := by
  intro fuel
  induction fuel with
  | zero =>
    intro s _
    cases s <;> rfl
  | succ n ih =>
    intro s hocc
    match s with
    | [] => rfl
    | c :: rest =>
      simp only [occurs, Bool.or_eq_false_iff] at hocc
      simp only [str_replace_go, hocc.1, Bool.false_and, Bool.false_eq_true, if_false]
      rw [ih rest hocc.2]

theorem str_replace_crlf (s : List Char) :
    str_replace s ['\r', '\n'] ['\n'] = normalize_newlines s := by
  refine str_replace_go_two '\r' '\n' ['\n'] normalize_newlines rfl (fun c => rfl)
    (fun rest => by rw [normalize_newlines]; rw [if_pos ⟨rfl, rfl⟩]; rfl)
    (fun c₁ c₂ rest h => by rw [normalize_newlines]; rw [if_neg h])
    s.length s (Nat.le_refl _)

theorem str_replace_bsl (s : List Char) :
    str_replace s ['\\', '\n'] [] = splice_continuations s := by
  refine str_replace_go_two '\\' '\n' [] splice_continuations rfl (fun c => rfl)
    (fun rest => by rw [splice_continuations]; rw [if_pos ⟨rfl, rfl⟩]; rfl)
    (fun c₁ c₂ rest h => by rw [splice_continuations]; rw [if_neg h])
    s.length s (Nat.le_refl _)

theorem str_replace_tab (ts : Nat) (s : List Char) :
    str_replace s ['\t'] (List.replicate ts ' ') = expand_tabs ts s := by
  refine str_replace_go_one '\t' (List.replicate ts ' ') (expand_tabs ts) rfl
    (fun rest => by rw [expand_tabs]; rw [if_pos rfl])
    (fun c rest h => by rw [expand_tabs]; rw [if_neg h])
    s.length s (Nat.le_refl _)

theorem str_replace_noop (s pat rep : List Char) (h : occurs pat s = false) :
    str_replace s pat rep = s :=
  str_replace_go_noop pat rep s.length s h

/-- The translation loop of `parse_program` returns `ok` exactly when
every remaining pair is `EOI`; the accumulated codes are then wrapped
unchanged, in order. -/
theorem parse_program_go_ok_iff (pairs : List Pair) (codes : List AST) (a : AST) :
    parse_program_go pairs codes = Outcome.ok a ↔
      ((∀ p ∈ pairs, p.rule = Rule.EOI) ∧ a = AST.statements codes.reverse ⟨0, 0⟩) := by
  induction pairs with
  | nil => simp [parse_program_go, eq_comm]
  | cons p ps ih =>
    cases hr : p.rule with
    | EOI => simp [parse_program_go, hr, ih]
    | tag n => simp [parse_program_go, hr]

/-- C1: the spec requires that a concrete node whose rule tag has no
matching translation case yield a structured "untranslated rule" error
(rule name and span) and never abort.  The code instead falls into the
`debug_cases!` macro, whose expansion ends in `unreachable!()` — a
process abort.  This theorem evaluates the tree builder at a concrete
untranslated node and observes the panic. -/
theorem parse_program_untranslated_rule_panics :
    ParserConfig.parse_program ⟨4, none⟩ [⟨Rule.tag "Header", ⟨0, 5⟩, "# t"⟩] =
      Outcome.panicked "internal error: entered unreachable code" := rfl

/-- C2: whenever `parse_program` succeeds, the returned AST is a node
of kind `Program` whose children are exactly the translated top-level
statements, in source order.  Success forces every concrete pair to be
the `EOI` marker, so that list of statements is empty and the `Program`
node's children are exactly it. -/
theorem parse_program_ok_program (cfg : ParserConfig) (pairs : List Pair) (a : AST)
    (h : cfg.parse_program pairs = Outcome.ok a) :
    a.kind = ASTKind.Program ∧ a.children = [] ∧ ∀ p ∈ pairs, p.rule = Rule.EOI := by
  rw [ParserConfig.parse_program] at h
  rw [parse_program_go_ok_iff] at h
  obtain ⟨hall, ha⟩ := h
  subst ha
  exact ⟨rfl, rfl, hall⟩

/-- Witness for C2 at a concrete successful parse (a pair stream
holding only the `EOI` marker). -/
theorem parse_program_ok_program_witness :
    (AST.Node ASTKind.Program [] none).kind = ASTKind.Program ∧
      (AST.Node ASTKind.Program [] none).children = [] ∧
      ∀ p ∈ [Pair.mk Rule.EOI ⟨0, 4⟩ ""], p.rule = Rule.EOI :=
  parse_program_ok_program ⟨4, none⟩ [⟨Rule.EOI, ⟨0, 4⟩, ""⟩]
    (AST.Node ASTKind.Program [] none) rfl

/-- C3: the spec requires `InfixExpression` nodes to own their operator
and operand sub-nodes, so that `a + b * c` and `x - y` have different
trees.  `AST::infix` as written discards all three arguments and
returns a bare `InfixExpression` leaf: the tree for `a + (b * c)` is
identical to the tree for `x - y` over the same span. -/
theorem infix_discards_operator_and_operands :
    AST.infixExpr "+" (AST.string "a" ⟨0, 1⟩)
        (AST.infixExpr "*" (AST.string "b" ⟨4, 5⟩) (AST.string "c" ⟨8, 9⟩) ⟨4, 9⟩) ⟨0, 9⟩ =
      AST.infixExpr "-" (AST.string "x" ⟨0, 1⟩) (AST.string "y" ⟨8, 9⟩) ⟨0, 9⟩ := rfl

/-- C4: the preprocessor applies exactly the three transformations in
the fixed order CRLF-normalization, then continuation splicing, then
tab expansion (each a full left-to-right `str::replace` pass), and
`"a\tb"` with tab width 2 becomes `"a  b"`. -/
theorem preprocess_three_ordered_steps :
    (∀ (cfg : ParserConfig) (s : List Char),
        cfg.preprocess s =
          expand_tabs cfg.tab_size (splice_continuations (normalize_newlines s))) ∧
      (ParserConfig.mk 2 none).preprocess ['a', '\t', 'b'] = ['a', ' ', ' ', 'b'] := by
  constructor
  · intro cfg s
    rw [ParserConfig.preprocess, str_replace_crlf, str_replace_bsl, str_replace_tab]
  · rfl

/-- C8: on text already free of CRLF pairs, backslash-newline
continuations and tab characters, preprocessing is the identity. -/
theorem preprocess_idempotent (cfg : ParserConfig) (s : List Char)
    (h1 : occurs ['\r', '\n'] s = false)
    (h2 : occurs ['\\', '\n'] s = false)
    (h3 : occurs ['\t'] s = false) :
    cfg.preprocess s = s := by
  rw [ParserConfig.preprocess]
  rw [str_replace_noop s _ _ h1, str_replace_noop s _ _ h2, str_replace_noop s _ _ h3]

/-- Witness for C8 on the already-normalized text `"ab\n"`. -/
theorem preprocess_idempotent_witness :
    occurs ['\r', '\n'] ['a', 'b', '\n'] = false ∧
      occurs ['\\', '\n'] ['a', 'b', '\n'] = false ∧
      occurs ['\t'] ['a', 'b', '\n'] = false ∧
      (ParserConfig.mk 2 none).preprocess ['a', 'b', '\n'] = ['a', 'b', '\n'] :=
  ⟨rfl, rfl, rfl, preprocess_idempotent ⟨2, none⟩ ['a', 'b', '\n'] rfl rfl rfl⟩

/-- The configuration returned by `parse` is the input configuration
with the source locator recorded when the input carries one; no branch
touches any other field. -/
theorem parse_snd_eq (cfg : ParserConfig)
    (engine : List Char → Except SDLError (List Pair)) (input : CanParse) :
    (cfg.parse engine input).2 =
      match input.as_url with
      | some s => { cfg with file_url := some s }
      | none => cfg := by
  simp only [ParserConfig.parse]
  cases ht : input.as_text with
  | error e => simp [ht]
  | ok text =>
    simp only [ht]
    split <;> rfl

/-- `parse` never changes `tab_size`. -/
theorem parse_tab_size_eq (cfg : ParserConfig)
    (engine : List Char → Except SDLError (List Pair)) (input : CanParse) :
    (cfg.parse engine input).2.tab_size = cfg.tab_size := by
  rw [parse_snd_eq]
  cases hu : input.as_url <;> simp

/-- The result component of `parse` depends on the configuration only
through `tab_size`. -/
theorem parse_fst_congr (c₁ c₂ : ParserConfig) (h : c₁.tab_size = c₂.tab_size)
    (engine : List Char → Except SDLError (List Pair)) (input : CanParse) :
    (c₁.parse engine input).1 = (c₂.parse engine input).1 := by
  simp only [ParserConfig.parse, ParserConfig.preprocess, ParserConfig.parse_program]
  cases hu : input.as_url <;> cases ht : input.as_text <;> simp only [hu, ht, h]
  all_goals split <;> rename_i he <;> simp only [he]

/-- C7: parsing the same input twice through the same configuration
instance (whose locator field the first call may have updated) yields
the same result, hence structurally identical ASTs — same kind and same
children at every node, recursively. -/
theorem parse_deterministic (cfg : ParserConfig)
    (engine : List Char → Except SDLError (List Pair)) (input : CanParse) :
    (((cfg.parse engine input).2).parse engine input).1 = (cfg.parse engine input).1 :=
  parse_fst_congr ((cfg.parse engine input).2) cfg
    (parse_tab_size_eq cfg engine input) engine input

/-- C9: during a `parse` call the only configuration field written is
the source locator `file_url`, and only when the input carries a URL;
`tab_size` is unchanged by every parse call. -/
theorem parse_frame (cfg : ParserConfig)
    (engine : List Char → Except SDLError (List Pair)) (input : CanParse) :
    (cfg.parse engine input).2.tab_size = cfg.tab_size ∧
      (input.as_url = none → (cfg.parse engine input).2 = cfg) ∧
      ∀ u, input.as_url = some u →
        (cfg.parse engine input).2 = { cfg with file_url := some u } := by
  refine ⟨parse_tab_size_eq cfg engine input, ?_, ?_⟩
  · intro hu
    rw [parse_snd_eq, hu]
  · intro u hu
    rw [parse_snd_eq, hu]

/-- Witness for C9 at a concrete URL-carrying input. -/
theorem parse_frame_witness :
    ((ParserConfig.mk 4 none).parse (fun _ => Except.error (SDLError.acquisitionError "net"))
          ⟨some "file:///a.sdl", Except.error (SDLError.acquisitionError "net")⟩).2 =
        ParserConfig.mk 4 (some "file:///a.sdl") ∧
      ((ParserConfig.mk 4 none).parse (fun _ => Except.error (SDLError.acquisitionError "net"))
          ⟨some "file:///a.sdl", Except.error (SDLError.acquisitionError "net")⟩).2.tab_size = 4 :=
  ⟨(parse_frame (ParserConfig.mk 4 none) _ _).2.2 "file:///a.sdl" rfl,
    (parse_frame (ParserConfig.mk 4 none) _ _).1⟩

/-- C5 counterexample: the spec says the top-level parse entry always
returns a single typed result and never panics; but when the grammar
engine accepts the input and hands back any top-level node whose rule
tag is not `EOI` (here a `TextBlock` node), `parse` falls into
`debug_cases!`'s `unreachable!()` and the process aborts. -/
theorem parse_panics_on_untranslated_top_level :
    ((ParserConfig.mk 4 none).parse
          (fun _ => Except.ok [⟨Rule.tag "TextBlock", ⟨0, 1⟩, "x"⟩])
          ⟨none, Except.ok ['x']⟩).1 =
      Outcome.panicked "internal error: entered unreachable code" := rfl

/-- C5 (amended): the top-level parse entry is fail-closed whenever it
returns at all — an acquisition failure or an engine rejection comes
back as that structured error with no partial tree, and an engine
acceptance consisting only of `EOI` markers comes back as a complete
`Program` AST; the exception is an engine acceptance containing an
untranslated non-`EOI` node, on which `parse` panics instead of
returning a typed result. -/
theorem parse_fail_closed (cfg : ParserConfig)
    (engine : List Char → Except SDLError (List Pair)) (input : CanParse) :
    (∀ e, input.as_text = Except.error e → (cfg.parse engine input).1 = Outcome.err e) ∧
      (∀ text e, input.as_text = Except.ok text →
        engine (cfg.preprocess text) = Except.error e →
        (cfg.parse engine input).1 = Outcome.err e) ∧
      ∀ text pairs, input.as_text = Except.ok text →
        engine (cfg.preprocess text) = Except.ok pairs →
        (∀ p ∈ pairs, p.rule = Rule.EOI) →
        (cfg.parse engine input).1 = Outcome.ok (AST.statements [] ⟨0, 0⟩) := by
  refine ⟨?_, ?_, ?_⟩
  · intro e ht
    simp only [ParserConfig.parse, ht]
  · intro text e ht he
    simp only [ParserConfig.preprocess] at he
    simp only [ParserConfig.parse, ParserConfig.preprocess, ht]
    cases hu : input.as_url <;> simp [he]
  · intro text pairs ht he hall
    have hok : parse_program_go pairs [] =
        Outcome.ok (AST.statements List.nil.reverse ⟨0, 0⟩) :=
      (parse_program_go_ok_iff pairs [] _).mpr ⟨hall, rfl⟩
    simp only [List.reverse_nil] at hok
    simp only [ParserConfig.preprocess] at he
    simp only [ParserConfig.parse, ParserConfig.preprocess, ParserConfig.parse_program, ht]
    cases hu : input.as_url <;> simp [he, hok]

/-- Witness for C5's amended theorem: a concrete input whose normalized
text the engine rejects comes back as exactly that syntax error. -/
theorem parse_fail_closed_witness :
    ((ParserConfig.mk 4 none).parse
          (fun _ => Except.error (SDLError.syntaxError ⟨0, 1⟩ "statement"))
          ⟨none, Except.ok ['y']⟩).1 =
      Outcome.err (SDLError.syntaxError ⟨0, 1⟩ "statement") :=
  (parse_fail_closed (ParserConfig.mk 4 none) _ _).2.1 ['y'] _ rfl rfl

/-- C6 counterexample: the spec says an absent range never implies
position zero — a node built with a zero-length span at any offset must
be distinguishable from a node at position zero.  In the code,
`box_range` drops every degenerate span, so `AST::null` built at the
zero-length span (3,3) is the very same value as `AST::null` built at
(0,0), and its `range()` accessor reads back the default span (0,0). -/
theorem zero_length_span_indistinguishable :
    AST.null ⟨3, 3⟩ = AST.null ⟨0, 0⟩ ∧ (AST.null ⟨3, 3⟩).range = ⟨0, 0⟩ :=
  ⟨rfl, rfl⟩

/-- C6 (amended): a node's stored range is absent exactly when the
span it was built from is degenerate (zero length, i.e. `sum() == 0`);
when absent, the `range()` accessor returns the default span (0,0), so
a degenerate span at any offset reads back as position zero. -/
theorem leaf_range_absent_iff_degenerate (k : ASTKind) (r : TextRange) :
    ((AST.Leaf k (box_range r)).storedRange = none ↔ r.sum = 0) ∧
      (r.sum = 0 → (AST.Leaf k (box_range r)).range = ⟨0, 0⟩) := by
  constructor
  · simp only [AST.storedRange, box_range]
    cases hs : r.sum <;> simp
  · intro h
    simp only [AST.range, box_range, h]
    rfl

/-- Witness for C6's amended theorem at the degenerate span (5,5). -/
theorem leaf_range_absent_iff_degenerate_witness :
    (AST.Leaf ASTKind.Null (box_range ⟨5, 5⟩)).storedRange = none ∧
      (AST.Leaf ASTKind.Null (box_range ⟨5, 5⟩)).range = ⟨0, 0⟩ :=
  ⟨(leaf_range_absent_iff_degenerate ASTKind.Null ⟨5, 5⟩).1.mpr rfl,
    (leaf_range_absent_iff_degenerate ASTKind.Null ⟨5, 5⟩).2 rfl⟩

/-- C10: every AST value built as a `Leaf` — including `ForInLoop` and
`Template` nodes, whose sub-structure lives inside the kind payload —
reports no children through the `children()` accessor, so traversal by
`children()` never reaches a `ForInLoop`'s pattern, terms or block, nor
a `Template`'s nested children. -/
theorem leaf_children_empty :
    (∀ (k : ASTKind) (r : Option TextRange), (AST.Leaf k r).children = []) ∧
      (∀ (pattern terms block : AST) (r : TextRange),
        (AST.for_in_loop pattern terms block r).children = []) ∧
      ∀ (v : Template) (r : TextRange), (AST.template v r).children = [] :=
  ⟨fun _ _ => rfl, fun _ _ _ _ => rfl, fun _ _ => rfl⟩
